import Mathlib

/-!
# Verification of the channel-web lite widget bootstrap
  (src/modules/channel-web/src/views/lite/main.tsx)

A shallow embedding of the `Web` React component: JavaScript values are
modelled by an inductive `JsVal`, JS objects by association lists with unique
keys, `Object.assign` by an in-order fold of field assignments, `JSON.parse`
by a fuel-indexed recursive-descent parser returning `Option`, and every
side-effecting call (store actions, socket calls, `postMessage`, awaits) by an
abstract `Event` so that each handler is a pure function from its inputs (and
the component's local state) to the list of events it performs.
-/

set_option autoImplicit false

namespace ChannelWeb

/-- JavaScript runtime values, as far as the widget manipulates them.
Numbers are modelled as integers: no claim involves fractional numerals. -/
inductive JsVal where
  | undefined
  | null
  | bool (b : Bool)
  | num (n : Int)
  | str (s : String)
  | obj (fields : List (String × JsVal))
  | arr (elems : List JsVal)
  deriving BEq, Repr, Inhabited

/-- JavaScript truthiness (`NaN` is outside the integer number model). -/
def JsVal.truthy : JsVal → Bool
  | .undefined => false
  | .null => false
  | .bool b => b
  | .num n => n != 0
  | .str s => s ≠ ""
  | .obj _ => true
  | .arr _ => true

/-- Lookup of an own property in an object's field list (objects built by the
embedding keep their keys unique, so first match is the match). -/
def getField : List (String × JsVal) → String → Option JsVal
  | [], _ => none
  | (k, v) :: rest, key => if k = key then some v else getField rest key

/-- A single JS property assignment `target[key] = v`: overwrites the key in
place when present, otherwise appends it in insertion order. -/
def setField : List (String × JsVal) → String → JsVal → List (String × JsVal)
  | [], key, v => [(key, v)]
  | (k, w) :: rest, key, v =>
    if k = key then (key, v) :: rest else (k, w) :: setField rest key v

/-- `Object.assign(target, src)` restricted to the field lists: assigns each
own enumerable property of `src` onto `target`, in `src`'s key order. -/
def objAssign2 (target src : List (String × JsVal)) : List (String × JsVal) :=
  src.foldl (fun acc kv => setField acc kv.1 kv.2) target

/-- The own enumerable string-keyed properties a value contributes when used
as an `Object.assign` source: objects contribute their fields, arrays and
strings their index properties, primitives and `null`/`undefined` nothing. -/
def assignSource : JsVal → List (String × JsVal)
  | .obj fields => fields
  | .arr xs => xs.enum.map (fun iv => (toString iv.1, iv.2))
  | .str s => s.toList.enum.map (fun ic => (toString ic.1, JsVal.str (String.mk [ic.2])))
  | _ => []

/-- `Object.assign({}, defaults, partial)`: the right-biased one-level merge
used by `extractConfig` and by the `configure` branch of `handleIframeApi`. -/
def mergeConfig (defaults partial_ : List (String × JsVal)) :
    List (String × JsVal) :=
  objAssign2 (objAssign2 [] defaults) partial_

/-! ## Property access and JS helpers -/

/-- JS property access `v[key]`, fallible: `none` models the `TypeError`
thrown when reading a property of `null`/`undefined` (e.g. by destructuring);
missing properties read as `undefined`. Properties of primitive wrappers
beyond `undefined` are not modelled (no claim touches them). -/
def getProp : JsVal → String → Option JsVal
  | .undefined, _ => none
  | .null, _ => none
  | .obj fields, key => some ((getField fields key).getD .undefined)
  | .arr xs, key =>
      some ((getField (xs.enum.map (fun iv => (toString iv.1, iv.2))) key).getD .undefined)
  | _, _ => some .undefined

/-- Total property access, used where the source guards the receiver by a
truthiness test (so `null`/`undefined` receivers cannot occur). -/
def propAccess (v : JsVal) (key : String) : JsVal :=
  (getProp v key).getD .undefined

/-- `_values obj = Object.keys(obj).map(x => obj[x])` from the source file:
own enumerable values in insertion order. -/
def jsValues : JsVal → List JsVal
  | .obj fields => fields.map Prod.snd
  | .arr xs => xs
  | .str s => s.toList.map (fun c => JsVal.str (String.mk [c]))
  | _ => []

/-! ## JSON.parse, modelled as a fuel-indexed recursive-descent parser

`none` models a thrown `SyntaxError`. As in JSON, numerals may not carry a
leading zero and string literals may not contain raw control characters.
JSON fractional/exponent numerals and `\u` escapes are outside the model
(no claim involves them); such payloads parse to `none`. Fuel `length + 1`
suffices because every recursive call first consumes at least one
character. -/

def isWsChar (c : Char) : Bool := c = ' ' || c = '\t' || c = '\n' || c = '\r'

def skipWs (cs : List Char) : List Char := cs.dropWhile isWsChar

def hexVal (c : Char) : Option Nat :=
  if '0' ≤ c ∧ c ≤ '9' then some (c.toNat - '0'.toNat)
  else if 'a' ≤ c ∧ c ≤ 'f' then some (c.toNat - 'a'.toNat + 10)
  else if 'A' ≤ c ∧ c ≤ 'F' then some (c.toNat - 'A'.toNat + 10)
  else none

def parseStringLit : Nat → List Char → Option (String × List Char)
  | 0, _ => none
  | _ + 1, [] => none
  | fuel + 1, c :: rest =>
    if c = '"' then some ("", rest)
    else if c = '\\' then
      match rest with
      | [] => none
      | e :: rest' =>
        let esc : Option Char :=
          if e = '"' then some '"'
          else if e = '\\' then some '\\'
          else if e = '/' then some '/'
          else if e = 'n' then some '\n'
          else if e = 't' then some '\t'
          else if e = 'r' then some '\r'
          else if e = 'b' then some (Char.ofNat 8)
          else if e = 'f' then some (Char.ofNat 12)
          else none
        match esc with
        | none => none
        | some d =>
          match parseStringLit fuel rest' with
          | none => none
          | some (s, rem) => some (String.mk (d :: s.toList), rem)
    else if c.toNat < 32 then none
    else
      match parseStringLit fuel rest with
      | none => none
      | some (s, rem) => some (String.mk (c :: s.toList), rem)

def digitsToNat (ds : List Char) : Nat :=
  ds.foldl (fun a c => a * 10 + (c.toNat - '0'.toNat)) 0

/-- Integer numeral: a single `0`, or a nonzero digit followed by digits
(JSON forbids leading zeros), not followed by a fraction or exponent. -/
def parseNatNum (cs : List Char) : Option (Nat × List Char) :=
  let ds := cs.takeWhile Char.isDigit
  let rest := cs.dropWhile Char.isDigit
  if ds.isEmpty then none
  else if 1 < ds.length ∧ ds.headD '0' = '0' then none
  else
    match rest with
    | '.' :: _ => none
    | 'e' :: _ => none
    | 'E' :: _ => none
    | _ => some (digitsToNat ds, rest)

mutual

def parseValue : Nat → List Char → Option (JsVal × List Char)
  | 0, _ => none
  | fuel + 1, cs =>
    match skipWs cs with
    | [] => none
    | c :: rest =>
      if c = 'n' then
        match rest with
        | 'u' :: 'l' :: 'l' :: rem => some (.null, rem)
        | _ => none
      else if c = 't' then
        match rest with
        | 'r' :: 'u' :: 'e' :: rem => some (.bool true, rem)
        | _ => none
      else if c = 'f' then
        match rest with
        | 'a' :: 'l' :: 's' :: 'e' :: rem => some (.bool false, rem)
        | _ => none
      else if c = '"' then
        match parseStringLit fuel rest with
        | none => none
        | some (s, rem) => some (.str s, rem)
      else if c = '{' then
        match skipWs rest with
        | '}' :: rem => some (.obj [], rem)
        | _ =>
          match parseMembers fuel rest with
          | none => none
          | some (ms, rem) => some (.obj ms, rem)
      else if c = '[' then
        match skipWs rest with
        | ']' :: rem => some (.arr [], rem)
        | _ =>
          match parseElems fuel rest with
          | none => none
          | some (vs, rem) => some (.arr vs, rem)
      else if c = '-' then
        match parseNatNum rest with
        | none => none
        | some (n, rem) => some (.num (-(n : Int)), rem)
      else if c.isDigit then
        match parseNatNum (c :: rest) with
        | none => none
        | some (n, rem) => some (.num (n : Int), rem)
      else none

def parseMembers : Nat → List Char → Option (List (String × JsVal) × List Char)
  | 0, _ => none
  | fuel + 1, cs =>
    match skipWs cs with
    | '"' :: rest =>
      match parseStringLit fuel rest with
      | none => none
      | some (k, r1) =>
        match skipWs r1 with
        | ':' :: r2 =>
          match parseValue fuel r2 with
          | none => none
          | some (v, r3) =>
            match skipWs r3 with
            | ',' :: r4 =>
              match parseMembers fuel r4 with
              | none => none
              | some (ms, rem) => some ((k, v) :: ms, rem)
            | '}' :: r4 => some ([(k, v)], r4)
            | _ => none
        | _ => none
    | _ => none

def parseElems : Nat → List Char → Option (List JsVal × List Char)
  | 0, _ => none
  | fuel + 1, cs =>
    match parseValue fuel cs with
    | none => none
    | some (v, r1) =>
      match skipWs r1 with
      | ',' :: r2 =>
        match parseElems fuel r2 with
        | none => none
        | some (vs, rem) => some (v :: vs, rem)
      | ']' :: r2 => some ([v], r2)
      | _ => none

end

/-- `JSON.parse`: `none` models a thrown `SyntaxError`. -/
def jsonParse (s : String) : Option JsVal :=
  let cs := s.toList
  match parseValue (cs.length + 1) cs with
  | some (v, rest) => if skipWs rest = [] then some v else none
  | none => none

/-- `decodeURIComponent`, byte-level model: each `%HH` decodes to the
character with that code (multi-byte UTF-8 sequences are not recombined; no
claim uses non-ASCII input). `none` models the `URIError` thrown on a `%`
not followed by two hex digits. -/
def percentDecode : List Char → Option (List Char)
  | [] => some []
  | '%' :: rest =>
    match rest with
    | h1 :: h2 :: rest' =>
      match hexVal h1, hexVal h2 with
      | some a, some b =>
        match percentDecode rest' with
        | none => none
        | some ds => some (Char.ofNat (16 * a + b) :: ds)
      | _, _ => none
    | _ => none
  | c :: rest =>
    match percentDecode rest with
    | none => none
    | some ds => some (c :: ds)

def decodeURIComponent (s : String) : Option String :=
  (percentDecode s.toList).map (fun cs => String.mk cs)

/-! ## The configuration defaults -/

/-- Modelled from the spec: `constants.DEFAULT_CONFIG` lives in
`./core/constants`, which is not among the provided sources. The spec names
locale, stylesheet URLs, userId, overrides and containerDimensions as the
configurable keys merged from a default set but fixes no concrete default
values; this instance picks representative ones so closed witnesses can
evaluate the merge. Every merge theorem below is proved for arbitrary
defaults. -/
def DEFAULT_CONFIG : List (String × JsVal) :=
  [("locale", .str "en"),
   ("stylesheet", .str ""),
   ("extraStylesheet", .str ""),
   ("userId", .undefined),
   ("overrides", .undefined),
   ("containerDimensions", .undefined)]

/-! ## extractConfig -/

/-- `extractConfig` from the source, minus its `updateConfig` side effect
(recorded as an event by `initializeTrace`):

```
const { options } = queryString.parse(location.search)
const { config } = JSON.parse(decodeURIComponent(options || '{}'))
const userConfig = Object.assign({}, constants.DEFAULT_CONFIG, config)
```

`options` is the query parameter as the query-string library returns it
(`none` when absent). `none` as a result models an uncaught throw from
`decodeURIComponent`, `JSON.parse`, or destructuring `null`. -/
def extractConfig (defaults : List (String × JsVal)) (options : Option String) :
    Option (List (String × JsVal)) :=
  let raw : String :=
    match options with
    | none => "{}"
    | some s => if s = "" then "{}" else s
  match decodeURIComponent raw with
  | none => none
  | some decoded =>
    match jsonParse decoded with
    | none => none
    | some parsed =>
      match getProp parsed "config" with
      | none => none
      | some config => some (mergeConfig defaults (assignSource config))

/-! ## The event alphabet

Every observable call the component makes (store actions, socket calls,
host-frame messages, the two awaited suspensions, timer scheduling) is an
`Event`; each handler below is the pure function from its inputs and local
state to the list of events it performs, in program order. -/

inductive Event where
  | socketCreate
  | registerOnMessage
  | registerOnTyping
  | registerOnUserIdChanged
  | socketSetup
  | applyConfig (cfg : List (String × JsVal))
  | loadModuleView (moduleName : JsVal) (forceReplace : Bool)
  | changeUserId (id : JsVal)
  | awaitUserId
  | initializeChat
  | installWatchers
  | setLoadingCompleted
  | showChat
  | hideChat
  | sendMessage (text : JsVal)
  | sendData (ty payload : JsVal)
  | addEventToConversation (ev : List (String × JsVal))
  | playAudio
  | schedulePlayedReset
  | incrementUnread
  | resetUnread
  | postMessage (ty : String) (value : JsVal)
  deriving BEq, Repr

def Event.isSetLoadingCompleted : Event → Bool
  | .setLoadingCompleted => true
  | _ => false

def Event.isLoadModuleView : Event → Bool
  | .loadModuleView _ _ => true
  | _ => false

def Event.isPlayAudio : Event → Bool
  | .playAudio => true
  | _ => false

def Event.isIncrementUnread : Event → Bool
  | .incrementUnread => true
  | _ => false

def Event.isResetUnread : Event → Bool
  | .resetUnread => true
  | _ => false

def Event.isSetClassMsg : Event → Bool
  | .postMessage ty _ => ty = "setClass"
  | _ => false

/-- The JS strict comparison `v === 's'` against a string literal. -/
def JsVal.isStr (v : JsVal) (s : String) : Bool :=
  match v with
  | .str t => t = s
  | _ => false

/-! ## Bootstrap (`initialize`) and override loading -/

/-- `loadOverrides`: `for (const override of _values(overrides))
bp.loadModuleView(override.module, true)`. -/
def loadOverridesTrace (overrides : JsVal) : List Event :=
  (jsValues overrides).map (fun ov => .loadModuleView (propAccess ov "module") true)

/-- The event trace of `initialize()` (called exactly once, from
`componentDidMount`). `none` models an uncaught throw from `extractConfig`.
The two `await`s are the `awaitUserId` / `initializeChat` events; everything
after them runs only once they resolve. Note the bootstrap consults no
host-frame reference: override loading here depends only on the resolved
configuration. -/
def initializeTrace (defaults : List (String × JsVal)) (options : Option String) :
    Option (List Event) :=
  match extractConfig defaults options with
  | none => none
  | some cfg =>
    let overrides := (getField cfg "overrides").getD .undefined
    let userId := (getField cfg "userId").getD .undefined
    some ([.socketCreate, .registerOnMessage, .registerOnTyping,
           .registerOnUserIdChanged, .socketSetup, .applyConfig cfg]
      ++ (if overrides.truthy then loadOverridesTrace overrides else [])
      ++ (if userId.truthy then [.changeUserId userId] else [])
      ++ [.awaitUserId, .initializeChat, .installWatchers, .setLoadingCompleted])

/-! ## The three watchers installed by `setupObserver`

Each is the pure action list of one observer callback, as a function of the
change record (`data.oldValue` / `data.newValue`) and, where the source
consults it, the truthiness of `window.parent`. -/

/-- `observe(config, 'userId', ...)`: returns without acting when the old
value is falsy; otherwise awaits `changeUserId(newValue)` then
`initializeChat()`. -/
def userIdWatcherActions (oldValue newValue : JsVal) : List Event :=
  if oldValue.truthy then [.changeUserId newValue, .initializeChat] else []

/-- `observe(config, 'overrides', ...)`: loads overrides only when the new
value is truthy and a host-frame reference is present. -/
def overridesWatcherActions (parentPresent : Bool) (newValue : JsVal) :
    List Event :=
  if newValue.truthy && parentPresent then loadOverridesTrace newValue else []

/-- `observe(dimensions, 'container', ...)`: posts `setWidth` to the host
frame when the new value is truthy and a host-frame reference is present. -/
def containerWatcherActions (parentPresent : Bool) (newValue : JsVal) :
    List Event :=
  if newValue.truthy && parentPresent then [.postMessage "setWidth" newValue]
  else []

/-! ## The inbound cross-frame handler -/

/-- `handleIframeApi = ({ data: { action, payload } }) => ...`, as a function
of the message's `action` and `payload`. `none` models the `TypeError`
thrown by `const { type, text } = payload` when `payload` is
`null`/`undefined` in the `event` branch. -/
def handleIframeApi (defaults : List (String × JsVal)) (action payload : JsVal) :
    Option (List Event) :=
  if action.isStr "configure" then
    some [.applyConfig (mergeConfig defaults (assignSource payload))]
  else if action.isStr "event" then
    match getProp payload "type", getProp payload "text" with
    | some ty, some text =>
      some (if ty.isStr "show" then [.showChat]
        else if ty.isStr "hide" then [.hideChat]
        else if ty.isStr "message" then [.sendMessage text]
        else [.sendData ty payload])
    | _, _ => none
  else some []

/-! ## The socket message handler and the sound latch -/

/-- The guard at the top of `handleNewMessage`:
`(event.payload && event.payload.type === 'visit') ||
 event.message_type === 'visit'`. -/
def isVisit (ev : List (String × JsVal)) : Bool :=
  let payload := (getField ev "payload").getD .undefined
  (payload.truthy && (propAccess payload "type").isStr "visit")
    || ((getField ev "message_type").getD .undefined).isStr "visit"

/-- `playSound()` acting on the `played` latch of the component state:
when the latch is set, nothing happens; otherwise the audio is played, the
latch is set, and a timer is scheduled to clear it after
`MIN_TIME_BETWEEN_SOUNDS`. -/
def playSound (played : Bool) : Bool × List Event :=
  if played then (played, [])
  else (true, [.playAudio, .schedulePlayedReset])

/-- `handleResetUnreadCount`: resets the unread count only when
`document.hasFocus` exists, reports focus, and the active view is `side`.
`hasFocusFn = none` models a document without a `hasFocus` function. -/
def handleResetUnreadCount (hasFocusFn : Option Bool) (activeView : String) :
    List Event :=
  if hasFocusFn.getD false && activeView == "side" then [.resetUnread] else []

/-- `handleNewMessage`, as a function of the focus state, the active view,
the `played` latch and the socket event (an object, given by its fields);
returns the new latch and the events performed. -/
def handleNewMessage (hasFocusFn : Option Bool) (activeView : String)
    (played : Bool) (ev : List (String × JsVal)) : Bool × List Event :=
  if isVisit ev then (played, [])
  else
    let noFocus :=
      (match hasFocusFn with
       | some f => !f
       | none => false) || activeView != "side"
    if noFocus then
      let r := playSound played
      (r.1, [.addEventToConversation ev] ++ r.2 ++ [.incrementUnread]
        ++ handleResetUnreadCount hasFocusFn activeView)
    else
      (played, [.addEventToConversation ev]
        ++ handleResetUnreadCount hasFocusFn activeView)

/-- A burst of socket messages delivered back-to-back, before the
`MIN_TIME_BETWEEN_SOUNDS` timer fires (so the latch is never cleared in
between). -/
def processBurst (hasFocusFn : Option Bool) (activeView : String) :
    Bool → List (List (String × JsVal)) → Bool × List Event
  | played, [] => (played, [])
  | played, ev :: rest =>
    let r1 := handleNewMessage hasFocusFn activeView played ev
    let r2 := processBurst hasFocusFn activeView r1.1 rest
    (r2.1, r1.2 ++ r2.2)

/-! ## The `setClass` deduplication in `render` -/

/-- The computed CSS class string of a render pass. -/
def computeParentClass (activeView : String) : String :=
  "bp-widget-web bp-widget-" ++ activeView

/-- One `render()` pass acting on the `parentClass` instance field (`none`
models its initial `undefined`): when not ready, nothing happens; otherwise
the class is recomputed and, when it differs from the stored value, a
`setClass` message is posted (if a host frame is present) and the field is
updated. -/
def renderStep (isReady parentPresent : Bool) (activeView : String)
    (parentClass : Option String) : Option String × List Event :=
  if !isReady then (parentClass, [])
  else
    let pc := computeParentClass activeView
    if parentClass ≠ some pc then
      (some pc, if parentPresent then [.postMessage "setClass" (.str pc)] else [])
    else (parentClass, [])

/-- A sequence of render passes, each with its own readiness flag and active
view. -/
def renderSeq (parentPresent : Bool) :
    Option String → List (Bool × String) → Option String × List Event
  | pc, [] => (pc, [])
  | pc, (ready, view) :: rest =>
    let r1 := renderStep ready parentPresent view pc
    let r2 := renderSeq parentPresent r1.1 rest
    (r2.1, r1.2 ++ r2.2)

/-! ## Concrete instances used by closed witnesses -/

/-- The bootstrap trace with the `options` query parameter absent. -/
def mkInitTrace0 : List Event :=
  (initializeTrace DEFAULT_CONFIG none).getD []

/-- A query payload carrying one override. -/
def mkOptions0 : String :=
  "\x7b\"config\":\x7b\"overrides\":\x7b\"slot\":\x7b\"module\":\"m\"\x7d\x7d\x7d\x7d"

/-- The configuration resolved from `mkOptions0`. -/
def mkCfg0 : List (String × JsVal) :=
  (extractConfig DEFAULT_CONFIG (some mkOptions0)).getD []

/-- The bootstrap trace resolved from `mkOptions0`. -/
def mkTrace0 : List Event :=
  (initializeTrace DEFAULT_CONFIG (some mkOptions0)).getD []

/-! ## Merge lemmas and helper lemmas -/

theorem getField_eq_none_of_not_mem (l : List (String × JsVal)) (key : String)
    (h : key ∉ l.map Prod.fst) : getField l key = none := by
  induction l with
  | nil => rfl
  | cons kv rest ih =>
    obtain ⟨k, v⟩ := kv
    simp only [List.map_cons, List.mem_cons] at h
    push_neg at h
    simp [getField, Ne.symm h.1, ih h.2]

theorem getField_setField (fields : List (String × JsVal)) (k : String)
    (v : JsVal) (key : String) :
    getField (setField fields k v) key =
      if k = key then some v else getField fields key := by
  induction fields with
  | nil => simp [setField, getField]
  | cons kv rest ih =>
    obtain ⟨k', w⟩ := kv
    by_cases h1 : k' = k
    · subst h1
      by_cases h2 : k' = key <;> simp [setField, getField, h2]
    · by_cases h2 : k' = key
      · subst h2
        have hne : k ≠ k' := fun he => h1 he.symm
        simp [setField, getField, h1, hne]
      · simp [setField, getField, h1, h2, ih]

theorem getField_objAssign2 (src : List (String × JsVal))
    (hnd : (src.map Prod.fst).Nodup) (target : List (String × JsVal))
    (key : String) :
    getField (objAssign2 target src) key =
      ((getField src key).rec (getField target key) (fun v => some v)) := by
  induction src generalizing target with
  | nil => rfl
  | cons kv rest ih =>
    obtain ⟨k, v⟩ := kv
    simp only [List.map_cons, List.nodup_cons] at hnd
    have step : objAssign2 target ((k, v) :: rest) =
        objAssign2 (setField target k v) rest := rfl
    rw [step, ih hnd.2]
    by_cases hk : k = key
    · subst hk
      have hrest : getField rest k = none :=
        getField_eq_none_of_not_mem rest k hnd.1
      simp [getField, hrest, getField_setField]
    · cases hg : getField rest key <;>
        simp [getField, Ne.symm hk, hg, getField_setField, hk]

theorem getField_objAssign2_nil (defaults : List (String × JsVal))
    (hnd : (defaults.map Prod.fst).Nodup) (key : String) :
    getField (objAssign2 [] defaults) key = getField defaults key := by
  rw [getField_objAssign2 defaults hnd [] key]
  cases getField defaults key <;> rfl

/-- Lookup in the merged configuration: the partial's value when it has the
key, the default otherwise. -/
theorem getField_mergeConfig (defaults partial_ : List (String × JsVal))
    (hd : (defaults.map Prod.fst).Nodup) (hp : (partial_.map Prod.fst).Nodup)
    (key : String) :
    getField (mergeConfig defaults partial_) key =
      ((getField partial_ key).rec (getField defaults key) (fun v => some v)) := by
  unfold mergeConfig
  rw [getField_objAssign2 partial_ hp _ key]
  cases getField partial_ key with
  | none => exact getField_objAssign2_nil defaults hd key
  | some v => rfl

theorem JsVal.isStr_iff (v : JsVal) (s : String) :
    v.isStr s = true ↔ v = .str s := by
  cases v <;> simp [JsVal.isStr]

/-! ## Claims -/

/-- C1: for every runtime-supplied configuration partial `P`, the resolved
configuration is the defaults with `P`'s keys overlaid one level deep
(right-biased): a key present in `P` resolves to `P`'s value (keys unknown
to the defaults included), a key absent from `P` retains its default exactly;
and the `configure` message path performs exactly this merge, while the
query-string path (`extractConfig`) only ever produces such a merge. -/
theorem C1_config_merge_overlay (defaults P : List (String × JsVal))
    (hd : (defaults.map Prod.fst).Nodup) (hp : (P.map Prod.fst).Nodup) :
    (∀ key v, getField P key = some v →
        getField (mergeConfig defaults P) key = some v)
    ∧ (∀ key, getField P key = none →
        getField (mergeConfig defaults P) key = getField defaults key)
    ∧ handleIframeApi defaults (JsVal.str "configure") (JsVal.obj P)
        = some [Event.applyConfig (mergeConfig defaults P)]
    ∧ (∀ options cfg, extractConfig defaults options = some cfg →
        ∃ Q, cfg = mergeConfig defaults Q) := by
  refine ⟨?_, ?_, ?_, ?_⟩
  · intro key v hv
    rw [getField_mergeConfig defaults P hd hp key, hv]
  · intro key hv
    rw [getField_mergeConfig defaults P hd hp key, hv]
  · simp [handleIframeApi, JsVal.isStr, assignSource]
  · intro options cfg hcfg
    simp only [extractConfig] at hcfg
    split at hcfg
    · exact absurd hcfg (by simp)
    · split at hcfg
      · exact absurd hcfg (by simp)
      · split at hcfg
        · exact absurd hcfg (by simp)
        · rename_i c hc
          refine ⟨assignSource c, ?_⟩
          injection hcfg with h
          exact h.symm

theorem C1_config_merge_overlay_witness :
    getField (mergeConfig DEFAULT_CONFIG
        [("locale", JsVal.str "fr"), ("newKey", JsVal.num 1)]) "locale"
      = some (JsVal.str "fr")
    ∧ getField (mergeConfig DEFAULT_CONFIG
        [("locale", JsVal.str "fr"), ("newKey", JsVal.num 1)]) "stylesheet"
      = some (JsVal.str "")
    ∧ getField (mergeConfig DEFAULT_CONFIG
        [("locale", JsVal.str "fr"), ("newKey", JsVal.num 1)]) "newKey"
      = some (JsVal.num 1) := by
  have h := C1_config_merge_overlay DEFAULT_CONFIG
    [("locale", JsVal.str "fr"), ("newKey", JsVal.num 1)] (by decide) (by decide)
  exact ⟨h.1 "locale" _ rfl, (h.2.1 "stylesheet" rfl).trans rfl, h.1 "newKey" _ rfl⟩

/-- C3 counterexample: the claim says an absent `options` payload signals a
parse error (throws). It does not: `options || '{}'` substitutes the literal
`'{}'`, which parses, so `extractConfig` returns the defaults unchanged
rather than throwing. -/
theorem C3_absent_options_counterexample :
    extractConfig DEFAULT_CONFIG none = some (mergeConfig DEFAULT_CONFIG []) := by
  rfl

/-- C3 (amended): `extractConfig` URL-decodes the `options` field, parses it
and reads its `config` field; a malformed payload (URI-decode failure,
JSON parse failure, or a `null` parse result) throws, and a well-formed
payload yields the merged configuration — but an absent (or empty) `options`
field does NOT throw: it falls back to the literal `'{}'` and resolves to
the defaults exactly. -/
theorem C3_extract_config (defaults : List (String × JsVal))
    (hd : (defaults.map Prod.fst).Nodup) :
    (∀ options, options = none ∨ options = some "" →
        extractConfig defaults options = some (mergeConfig defaults [])
        ∧ ∀ key cfg, extractConfig defaults options = some cfg →
            getField cfg key = getField defaults key)
    ∧ (∀ s, s ≠ "" → decodeURIComponent s = none →
        extractConfig defaults (some s) = none)
    ∧ (∀ s d, s ≠ "" → decodeURIComponent s = some d → jsonParse d = none →
        extractConfig defaults (some s) = none)
    ∧ (∀ s d, s ≠ "" → decodeURIComponent s = some d →
        jsonParse d = some JsVal.null →
        extractConfig defaults (some s) = none)
    ∧ (∀ s d parsed c, s ≠ "" → decodeURIComponent s = some d →
        jsonParse d = some parsed → getProp parsed "config" = some c →
        extractConfig defaults (some s)
          = some (mergeConfig defaults (assignSource c))) := by
  have hdefault : ∀ options, options = none ∨ options = some "" →
      extractConfig defaults options = some (mergeConfig defaults []) := by
    intro options hopt
    rcases hopt with rfl | rfl <;> rfl
  refine ⟨?_, ?_, ?_, ?_, ?_⟩
  · intro options hopt
    refine ⟨hdefault options hopt, ?_⟩
    intro key cfg hcfg
    have hcfg' : cfg = mergeConfig defaults [] := by
      rw [hdefault options hopt] at hcfg
      exact (Option.some.injEq _ _ ▸ hcfg).symm
    subst hcfg'
    rw [getField_mergeConfig defaults [] hd (by simp) key]
    rfl
  · intro s hs hdec
    unfold extractConfig
    simp only [if_neg hs, hdec]
  · intro s d hs hdec hjson
    unfold extractConfig
    simp only [if_neg hs, hdec, hjson]
  · intro s d hs hdec hjson
    unfold extractConfig
    simp only [if_neg hs, hdec, hjson]
    rfl
  · intro s d parsed c hs hdec hjson hprop
    unfold extractConfig
    simp only [if_neg hs, hdec, hjson, hprop]

theorem C3_extract_config_witness :
    extractConfig DEFAULT_CONFIG none = some (mergeConfig DEFAULT_CONFIG [])
    ∧ extractConfig DEFAULT_CONFIG (some "")
        = some (mergeConfig DEFAULT_CONFIG [])
    ∧ extractConfig DEFAULT_CONFIG (some "not json") = none
    ∧ extractConfig DEFAULT_CONFIG (some "null") = none
    ∧ extractConfig DEFAULT_CONFIG
        (some "%7B%22config%22%3A%7B%22locale%22%3A%22fr%22%7D%7D")
      = some (mergeConfig DEFAULT_CONFIG [("locale", JsVal.str "fr")]) := by
  have h := C3_extract_config DEFAULT_CONFIG (by decide)
  refine ⟨(h.1 none (Or.inl rfl)).1, (h.1 (some "") (Or.inr rfl)).1,
    h.2.2.1 "not json" "not json" (by decide) rfl rfl,
    h.2.2.2.1 "null" "null" (by decide) rfl rfl, ?_⟩
  exact h.2.2.2.2 "%7B%22config%22%3A%7B%22locale%22%3A%22fr%22%7D%7D"
    "\x7b\"config\":\x7b\"locale\":\"fr\"\x7d\x7d"
    (JsVal.obj [("config", JsVal.obj [("locale", JsVal.str "fr")])])
    (JsVal.obj [("locale", JsVal.str "fr")]) (by decide) rfl rfl rfl

theorem mem_loadOverridesTrace_isLoad (ov : JsVal) (e : Event)
    (he : e ∈ loadOverridesTrace ov) : e.isLoadModuleView = true := by
  simp only [loadOverridesTrace, List.mem_map] at he
  obtain ⟨o, _, rfl⟩ := he
  rfl

theorem isLoad_not_setLoading (e : Event) (h : e.isLoadModuleView = true) :
    e.isSetLoadingCompleted = false := by
  cases e <;> first
    | rfl
    | exact absurd h (by simp [Event.isLoadModuleView])

/-- C2: on mount the bootstrap runs once; its trace starts with socket
instantiation, the three callback registrations and `setup()`, then applies
the resolved configuration, then (only when the configuration carries a
truthy user id) requests the socket to adopt it, then suspends on user-id
resolution, then on conversation initialization, then installs the watchers,
and signals loading-completed last — exactly once, and never before both
suspensions. -/
theorem C2_bootstrap_order (defaults : List (String × JsVal))
    (options : Option String) (tr : List Event)
    (h : initializeTrace defaults options = some tr) :
    ∃ cfg ovActs uidActs,
      extractConfig defaults options = some cfg
      ∧ tr = [.socketCreate, .registerOnMessage, .registerOnTyping,
              .registerOnUserIdChanged, .socketSetup, .applyConfig cfg]
          ++ ovActs ++ uidActs
          ++ [.awaitUserId, .initializeChat, .installWatchers,
              .setLoadingCompleted]
      ∧ (((getField cfg "userId").getD .undefined).truthy = true →
          uidActs = [.changeUserId ((getField cfg "userId").getD .undefined)])
      ∧ (((getField cfg "userId").getD .undefined).truthy = false → uidActs = [])
      ∧ (∀ e ∈ ovActs, e.isLoadModuleView = true)
      ∧ tr.countP (fun e => e.isSetLoadingCompleted) = 1
      ∧ tr.getLast? = some .setLoadingCompleted := by
  simp only [initializeTrace] at h
  split at h
  · exact absurd h (by simp)
  · rename_i cfg hcfg
    injection h with h
    subst h
    refine ⟨cfg, _, _, hcfg, rfl, ?_, ?_, ?_, ?_, ?_⟩
    · intro ht; rw [if_pos ht]
    · intro ht; rw [ht]; simp
    · intro e he
      split at he
      · exact mem_loadOverridesTrace_isLoad _ e he
      · simp at he
    · rw [List.countP_append, List.countP_append, List.countP_append]
      have h1 : ([Event.socketCreate, .registerOnMessage, .registerOnTyping,
          .registerOnUserIdChanged, .socketSetup,
          .applyConfig cfg] : List Event).countP
            (fun e => e.isSetLoadingCompleted) = 0 := rfl
      have h2 : (if ((getField cfg "overrides").getD .undefined).truthy then
            loadOverridesTrace ((getField cfg "overrides").getD .undefined)
          else []).countP (fun e => e.isSetLoadingCompleted) = 0 := by
        split
        · refine List.countP_eq_zero.mpr (fun e he => ?_)
          rw [isLoad_not_setLoading e (mem_loadOverridesTrace_isLoad _ e he)]
          simp
        · rfl
      have h3 : (if ((getField cfg "userId").getD .undefined).truthy then
            [Event.changeUserId ((getField cfg "userId").getD .undefined)]
          else []).countP (fun e => e.isSetLoadingCompleted) = 0 := by
        split <;> rfl
      rw [h1, h2, h3]
      rfl
    · rw [List.getLast?_append_of_ne_nil _ (by simp)]
      rfl

theorem C2_bootstrap_order_witness :
    ∃ cfg ovActs uidActs,
      extractConfig DEFAULT_CONFIG none = some cfg
      ∧ (mkInitTrace0 : List Event) =
          [.socketCreate, .registerOnMessage, .registerOnTyping,
           .registerOnUserIdChanged, .socketSetup, .applyConfig cfg]
          ++ ovActs ++ uidActs
          ++ [.awaitUserId, .initializeChat, .installWatchers,
              .setLoadingCompleted]
      ∧ (((getField cfg "userId").getD .undefined).truthy = true →
          uidActs = [.changeUserId ((getField cfg "userId").getD .undefined)])
      ∧ (((getField cfg "userId").getD .undefined).truthy = false → uidActs = [])
      ∧ (∀ e ∈ ovActs, e.isLoadModuleView = true)
      ∧ mkInitTrace0.countP (fun e => e.isSetLoadingCompleted) = 1
      ∧ mkInitTrace0.getLast? = some .setLoadingCompleted :=
  C2_bootstrap_order DEFAULT_CONFIG none mkInitTrace0 rfl

/-- C4: the userId watcher performs nothing on a first assignment (falsy old
value); on any change away from a truthy old value it first requests the
socket to adopt the new id, then re-runs conversation initialization, in
that order. -/
theorem C4_userId_watcher (oldValue newValue : JsVal) :
    (oldValue.truthy = false → userIdWatcherActions oldValue newValue = [])
    ∧ (oldValue.truthy = true →
        userIdWatcherActions oldValue newValue
          = [.changeUserId newValue, .initializeChat]) := by
  constructor
  · intro hf
    simp [userIdWatcherActions, hf]
  · intro ht
    simp [userIdWatcherActions, ht]

theorem C4_userId_watcher_witness :
    userIdWatcherActions JsVal.undefined (JsVal.str "u2") = []
    ∧ userIdWatcherActions (JsVal.str "u1") (JsVal.str "u2")
        = [.changeUserId (JsVal.str "u2"), .initializeChat] :=
  ⟨(C4_userId_watcher JsVal.undefined (JsVal.str "u2")).1 rfl,
   (C4_userId_watcher (JsVal.str "u1") (JsVal.str "u2")).2 (by decide)⟩

/-- C5 counterexample: the claim says override loading never happens in a
top-level (non-embedded) context, bootstrap-time application included. But
the bootstrap (`config.overrides && this.loadOverrides(config.overrides)`)
consults no host-frame reference at all — `initializeTrace` does not even
take one as input — so with a configuration carrying an override the
bootstrap trace contains a `loadModuleView` call, in a top-level context as
much as in an embedded one. -/
theorem C5_bootstrap_loads_counterexample :
    ((initializeTrace DEFAULT_CONFIG
        (some "\x7b\"config\":\x7b\"overrides\":\x7b\"slot\":\x7b\"module\":\"m\"\x7d\x7d\x7d\x7d")).getD
      []).countP (fun e => e.isLoadModuleView) = 1
    ∧ overridesWatcherActions false
        (JsVal.obj [("slot", JsVal.obj [("module", JsVal.str "m")])]) = [] := by
  constructor <;> rfl

/-- C5 (amended): the overrides *watcher* loads overrides only when both a
truthy overrides value and a host-frame reference are present (and skips
otherwise); the *bootstrap-time* application, however, loads the overrides
whenever the resolved configuration's overrides field is truthy, without
consulting any host-frame reference, so in a top-level context bootstrap
override loading still happens. -/
theorem C5_overrides_loading (parentPresent : Bool) (v : JsVal) :
    (v.truthy = true → parentPresent = true →
        overridesWatcherActions parentPresent v = loadOverridesTrace v)
    ∧ (v.truthy = false ∨ parentPresent = false →
        overridesWatcherActions parentPresent v = [])
    ∧ (∀ defaults options cfg tr,
        extractConfig defaults options = some cfg →
        initializeTrace defaults options = some tr →
        ((getField cfg "overrides").getD .undefined).truthy = true →
        loadOverridesTrace ((getField cfg "overrides").getD .undefined) <:+: tr) := by
  refine ⟨?_, ?_, ?_⟩
  · intro ht hp
    simp [overridesWatcherActions, ht, hp]
  · intro hor
    rcases hor with hf | hf <;> simp [overridesWatcherActions, hf]
  · intro defaults options cfg tr hcfg htr hov
    simp only [initializeTrace, hcfg] at htr
    injection htr with htr
    subst htr
    rw [if_pos hov]
    exact ⟨[Event.socketCreate, .registerOnMessage, .registerOnTyping,
            .registerOnUserIdChanged, .socketSetup, .applyConfig cfg],
      (if ((getField cfg "userId").getD .undefined).truthy then
        [Event.changeUserId ((getField cfg "userId").getD .undefined)] else [])
      ++ [Event.awaitUserId, .initializeChat, .installWatchers,
          .setLoadingCompleted], by simp⟩

theorem C5_overrides_loading_witness :
    overridesWatcherActions true
        (JsVal.obj [("slot", JsVal.obj [("module", JsVal.str "m")])])
      = loadOverridesTrace
          (JsVal.obj [("slot", JsVal.obj [("module", JsVal.str "m")])])
    ∧ overridesWatcherActions false
        (JsVal.obj [("slot", JsVal.obj [("module", JsVal.str "m")])]) = []
    ∧ loadOverridesTrace
        ((getField mkCfg0 "overrides").getD .undefined) <:+: mkTrace0 := by
  refine ⟨(C5_overrides_loading true _).1 rfl rfl,
    (C5_overrides_loading false _).2.1 (Or.inr rfl),
    (C5_overrides_loading false JsVal.undefined).2.2 DEFAULT_CONFIG
      (some mkOptions0) mkCfg0 mkTrace0 rfl rfl rfl⟩

/-- C6: inbound cross-frame dispatch: `configure` merges the payload over the
defaults and replaces the configuration; `event` with type `show` reveals the
panel, `hide` hides it, `message` submits the payload's `text` as an outgoing
chat message, and any other type forwards `{type, payload}` verbatim to the
conversation data channel. -/
theorem C6_iframe_dispatch (defaults : List (String × JsVal)) (payload : JsVal)
    (fields : List (String × JsVal)) :
    handleIframeApi defaults (.str "configure") payload
      = some [.applyConfig (mergeConfig defaults (assignSource payload))]
    ∧ (getField fields "type" = some (.str "show") →
        handleIframeApi defaults (.str "event") (.obj fields)
          = some [.showChat])
    ∧ (getField fields "type" = some (.str "hide") →
        handleIframeApi defaults (.str "event") (.obj fields)
          = some [.hideChat])
    ∧ (∀ tx, getField fields "type" = some (.str "message") →
        getField fields "text" = some tx →
        handleIframeApi defaults (.str "event") (.obj fields)
          = some [.sendMessage tx])
    ∧ (∀ ty, getField fields "type" = some ty →
        ty.isStr "show" = false → ty.isStr "hide" = false →
        ty.isStr "message" = false →
        handleIframeApi defaults (.str "event") (.obj fields)
          = some [.sendData ty (.obj fields)]) := by
  refine ⟨rfl, ?_, ?_, ?_, ?_⟩
  · intro h
    simp [handleIframeApi, getProp, h, JsVal.isStr]
  · intro h
    simp [handleIframeApi, getProp, h, JsVal.isStr]
  · intro tx hty htx
    simp [handleIframeApi, getProp, hty, htx, JsVal.isStr]
  · intro ty hty h1 h2 h3
    have e1 : (JsVal.str "event").isStr "configure" = false := by decide
    have e2 : (JsVal.str "event").isStr "event" = true := by decide
    simp [handleIframeApi, getProp, hty, e1, e2, h1, h2, h3]

theorem C6_iframe_dispatch_witness :
    handleIframeApi DEFAULT_CONFIG (.str "configure")
        (JsVal.obj [("locale", .str "fr")])
      = some [.applyConfig (mergeConfig DEFAULT_CONFIG
          [("locale", JsVal.str "fr")])]
    ∧ handleIframeApi DEFAULT_CONFIG (.str "event")
        (.obj [("type", .str "show")]) = some [.showChat]
    ∧ handleIframeApi DEFAULT_CONFIG (.str "event")
        (.obj [("type", .str "hide")]) = some [.hideChat]
    ∧ handleIframeApi DEFAULT_CONFIG (.str "event")
        (.obj [("type", .str "message"), ("text", .str "hello")])
      = some [.sendMessage (.str "hello")]
    ∧ handleIframeApi DEFAULT_CONFIG (.str "event")
        (.obj [("type", .str "custom"), ("data", .num 3)])
      = some [.sendData (.str "custom")
          (.obj [("type", .str "custom"), ("data", .num 3)])] := by
  refine ⟨(C6_iframe_dispatch DEFAULT_CONFIG (JsVal.obj [("locale", .str "fr")]) []).1,
    (C6_iframe_dispatch DEFAULT_CONFIG (JsVal.num 0) _).2.1 rfl,
    (C6_iframe_dispatch DEFAULT_CONFIG (JsVal.num 0) _).2.2.1 rfl,
    (C6_iframe_dispatch DEFAULT_CONFIG (JsVal.num 0) _).2.2.2.1
      (JsVal.str "hello") rfl rfl,
    (C6_iframe_dispatch DEFAULT_CONFIG (JsVal.num 0) _).2.2.2.2
      (JsVal.str "custom") rfl rfl rfl rfl⟩

/-- C10: a cross-frame message whose action is neither `configure` nor
`event` causes no operation at all: the handler invokes no store action, so
configuration and view state are untouched. -/
theorem C10_unknown_action_noop (defaults : List (String × JsVal))
    (action payload : JsVal)
    (h1 : action ≠ .str "configure") (h2 : action ≠ .str "event") :
    handleIframeApi defaults action payload = some [] := by
  have b1 : action.isStr "configure" = false := by
    cases hb : action.isStr "configure"
    · rfl
    · exact absurd ((JsVal.isStr_iff action "configure").mp hb) h1
  have b2 : action.isStr "event" = false := by
    cases hb : action.isStr "event"
    · rfl
    · exact absurd ((JsVal.isStr_iff action "event").mp hb) h2
  simp [handleIframeApi, b1, b2]

theorem C10_unknown_action_noop_witness :
    handleIframeApi DEFAULT_CONFIG (JsVal.str "ping") JsVal.null = some [] :=
  C10_unknown_action_noop DEFAULT_CONFIG (JsVal.str "ping") JsVal.null
    (by simp) (by simp)

/-- C8: a socket event whose truthy payload has type `visit`, or whose
`message_type` is `visit`, is dropped: the handler returns with no effect —
no `addEventToConversation`, no unread increment, no sound, latch unchanged. -/
theorem C8_visit_dropped (hasFocusFn : Option Bool) (activeView : String)
    (played : Bool) (ev : List (String × JsVal))
    (h : (∃ p, getField ev "payload" = some p ∧ p.truthy = true
            ∧ propAccess p "type" = .str "visit")
       ∨ (getField ev "message_type").getD .undefined = .str "visit") :
    handleNewMessage hasFocusFn activeView played ev = (played, []) := by
  have hv : isVisit ev = true := by
    rcases h with ⟨p, hp, ht, hty⟩ | hm
    · simp [isVisit, hp, ht, hty, JsVal.isStr]
    · simp [isVisit, hm, JsVal.isStr]
  simp [handleNewMessage, hv]

theorem C8_visit_dropped_witness :
    handleNewMessage (some false) "side" false
        [("message_type", JsVal.str "visit")] = (false, [])
    ∧ handleNewMessage (some true) "side" false
        [("payload", JsVal.obj [("type", JsVal.str "visit")])] = (false, []) :=
  ⟨C8_visit_dropped (some false) "side" false _ (Or.inr rfl),
   C8_visit_dropped (some true) "side" false _
     (Or.inl ⟨JsVal.obj [("type", JsVal.str "visit")], rfl, rfl, rfl⟩)⟩

theorem handleNewMessage_unfocused (activeView : String) (played : Bool)
    (ev : List (String × JsVal)) (hnv : isVisit ev = false) :
    handleNewMessage (some false) activeView played ev
      = (true, [.addEventToConversation ev]
          ++ (if played then [] else [.playAudio, .schedulePlayedReset])
          ++ [.incrementUnread]) := by
  cases played <;>
    simp [handleNewMessage, hnv, playSound, handleResetUnreadCount]

theorem processBurst_cons_snd (hf : Option Bool) (av : String) (played : Bool)
    (ev : List (String × JsVal)) (rest : List (List (String × JsVal))) :
    (processBurst hf av played (ev :: rest)).2
      = (handleNewMessage hf av played ev).2
        ++ (processBurst hf av (handleNewMessage hf av played ev).1 rest).2 :=
  rfl

theorem countP_incr_acts (ev : List (String × JsVal)) (b : Bool) :
    List.countP (fun e => e.isIncrementUnread)
      ([Event.addEventToConversation ev]
        ++ (if b then [] else [Event.playAudio, Event.schedulePlayedReset])
        ++ [Event.incrementUnread]) = 1 := by
  cases b <;> rfl

theorem countP_play_acts (ev : List (String × JsVal)) (b : Bool) :
    List.countP (fun e => e.isPlayAudio)
      ([Event.addEventToConversation ev]
        ++ (if b then [] else [Event.playAudio, Event.schedulePlayedReset])
        ++ [Event.incrementUnread]) = (if b then 0 else 1) := by
  cases b <;> rfl

theorem countP_reset_acts (ev : List (String × JsVal)) (b : Bool) :
    List.countP (fun e => e.isResetUnread)
      ([Event.addEventToConversation ev]
        ++ (if b then [] else [Event.playAudio, Event.schedulePlayedReset])
        ++ [Event.incrementUnread]) = 0 := by
  cases b <;> rfl

theorem processBurst_counts (activeView : String)
    (msgs : List (List (String × JsVal))) (played : Bool)
    (hnv : ∀ ev ∈ msgs, isVisit ev = false) :
    (processBurst (some false) activeView played msgs).2.countP
        (fun e => e.isIncrementUnread) = msgs.length
    ∧ (processBurst (some false) activeView played msgs).2.countP
        (fun e => e.isPlayAudio) = (if played || msgs.isEmpty then 0 else 1)
    ∧ (processBurst (some false) activeView played msgs).2.countP
        (fun e => e.isResetUnread) = 0 := by
  induction msgs generalizing played with
  | nil => cases played <;> simp [processBurst]
  | cons ev rest ih =>
    have hev := hnv ev (List.mem_cons_self _ _)
    obtain ⟨ih1, ih2, ih3⟩ := ih true (fun e he => hnv e (List.mem_cons_of_mem _ he))
    rw [processBurst_cons_snd, handleNewMessage_unfocused activeView played ev hev]
    dsimp only
    refine ⟨?_, ?_, ?_⟩
    · rw [List.countP_append, countP_incr_acts, ih1, List.length_cons]
      omega
    · rw [List.countP_append, countP_play_acts, ih2]
      cases played <;> simp
    · rw [List.countP_append, countP_reset_acts, ih3]

/-- C7: with the document unfocused, a burst of non-`visit` messages (all
inside one cooldown window, so the latch-reset timer never fires in between)
increments the unread count exactly once per message, never resets it, and
triggers the notification sound at most once — exactly once when the latch
starts clear and the burst is nonempty. -/
theorem C7_unfocused_burst (activeView : String) (played : Bool)
    (msgs : List (List (String × JsVal)))
    (hnv : ∀ ev ∈ msgs, isVisit ev = false) :
    (processBurst (some false) activeView played msgs).2.countP
        (fun e => e.isIncrementUnread) = msgs.length
    ∧ (processBurst (some false) activeView played msgs).2.countP
        (fun e => e.isPlayAudio) ≤ 1
    ∧ (played = false → msgs ≠ [] →
        (processBurst (some false) activeView played msgs).2.countP
          (fun e => e.isPlayAudio) = 1)
    ∧ (processBurst (some false) activeView played msgs).2.countP
        (fun e => e.isResetUnread) = 0 := by
  obtain ⟨h1, h2, h3⟩ := processBurst_counts activeView msgs played hnv
  refine ⟨h1, ?_, ?_, h3⟩
  · rw [h2]
    split <;> simp
  · intro hp hne
    rw [h2, hp]
    cases msgs with
    | nil => exact absurd rfl hne
    | cons a l => rfl

theorem C7_unfocused_burst_witness :
    (processBurst (some false) "side" false
        [[("text", JsVal.str "a")], [("text", JsVal.str "b")]]).2.countP
      (fun e => e.isIncrementUnread) = 2
    ∧ (processBurst (some false) "side" false
        [[("text", JsVal.str "a")], [("text", JsVal.str "b")]]).2.countP
      (fun e => e.isPlayAudio) = 1
    ∧ (processBurst (some false) "side" false
        [[("text", JsVal.str "a")], [("text", JsVal.str "b")]]).2.countP
      (fun e => e.isResetUnread) = 0 := by
  have h := C7_unfocused_burst "side" false
    [[("text", JsVal.str "a")], [("text", JsVal.str "b")]]
    (by intro ev he
        simp only [List.mem_cons, List.not_mem_nil, or_false] at he
        rcases he with rfl | rfl <;> rfl)
  exact ⟨h.1, h.2.2.1 rfl (by simp), h.2.2.2⟩

/-- C9: with the component ready and a host frame present, a render pass
emits `setClass` iff the freshly computed class string differs (by exact
string equality) from the last value sent, updating the stored value to the
sent one; repeated render passes with an unchanged class string emit nothing
further. -/
theorem C9_setClass_dedup (activeView : String) (pc : Option String)
    (parentPresent : Bool) :
    (pc = some (computeParentClass activeView) →
        renderStep true parentPresent activeView pc = (pc, []))
    ∧ (pc ≠ some (computeParentClass activeView) →
        renderStep true true activeView pc
          = (some (computeParentClass activeView),
             [.postMessage "setClass" (.str (computeParentClass activeView))]))
    ∧ (∀ n, (renderSeq parentPresent (some (computeParentClass activeView))
        (List.replicate n (true, activeView))).2 = []) := by
  refine ⟨?_, ?_, ?_⟩
  · intro h
    simp [renderStep, h]
  · intro h
    simp [renderStep, h]
  · intro n
    induction n with
    | zero => rfl
    | succ m ih =>
      simp [List.replicate_succ, renderSeq, renderStep, ih]

theorem C9_setClass_dedup_witness :
    renderStep true true "side" (some (computeParentClass "side"))
      = (some (computeParentClass "side"), [])
    ∧ renderStep true true "side" none
      = (some (computeParentClass "side"),
         [.postMessage "setClass" (.str (computeParentClass "side"))])
    ∧ (renderSeq true (some (computeParentClass "side"))
        (List.replicate 3 (true, "side"))).2 = [] :=
  ⟨(C9_setClass_dedup "side" (some (computeParentClass "side")) true).1 rfl,
   (C9_setClass_dedup "side" none true).2.1 (fun hx => Option.noConfusion hx),
   (C9_setClass_dedup "side" none true).2.2 3⟩

end ChannelWeb
